import Mathlib

/-!
Verification of the Controll Supervisor add-on (`controll-supervisor/run.py`).

The add-on's pure logic is shallowly embedded here.  Python strings are
modelled as `List Char`; Python's `in` (substring containment), `str.replace`,
`str.split`, `str.startswith` and slicing are modelled by executable list
functions below, and every handler fragment relevant to a claim is translated
from the source.  External effects (HTTP fetches, subprocess execution) are
passed in as explicit arguments or `Except` results, mirroring Python's
try/except control flow.
-/

namespace ControllSupervisor

/-- Python's `pat in s` substring test: true iff `pat` occurs contiguously in
`s` (and always true for the empty pattern, as in Python). -/
def containsSub (pat : List Char) : List Char → Bool
  | [] => pat.isEmpty
  | c :: rest => pat.isPrefixOf (c :: rest) || containsSub pat rest

/-- Fuel-driven worker for `replaceAll`.  The fuel only forces structural
termination; whenever `s.length ≤ fuel` the fuel never runs out, so
`replaceAll` below (which supplies `fuel = s.length`) computes Python's
left-to-right, non-overlapping `s.replace(pat, rep)`. -/
def replaceAllFuel (pat rep : List Char) : Nat → List Char → List Char
  | _, [] => []
  | 0, s => s
  | n + 1, c :: rest =>
    if !pat.isEmpty && pat.isPrefixOf (c :: rest) then
      rep ++ replaceAllFuel pat rep n ((c :: rest).drop pat.length)
    else
      c :: replaceAllFuel pat rep n rest

/-- Python's `s.replace(pat, rep)`: left-to-right, non-overlapping replacement
of every occurrence of `pat` by `rep`.  (All call sites in the source use a
non-empty literal `pat`; for an empty `pat` this function is the identity,
which is irrelevant to the claims.) -/
def replaceAll (pat rep s : List Char) : List Char :=
  replaceAllFuel pat rep s.length s

/-- Python's `s.split(sep)` for a single-character separator: splits at every
occurrence of `sep`, keeping empty pieces (so the result is always
non-empty). -/
def split_on (sep : Char) : List Char → List (List Char)
  | [] => [[]]
  | c :: rest =>
    match split_on sep rest with
    | [] => [[]]
    | h :: t => if c == sep then [] :: h :: t else (c :: h) :: t

/-- Approximation of Python's whitespace class for `str.split()`. -/
def isSpaceWs (c : Char) : Bool :=
  c == ' ' || c == '\t' || c == '\n' || c == '\r'

/-- Helper for `splitWs`: accumulates the current (reversed) word. -/
def splitWsAux : List Char → List Char → List (List Char)
  | [], acc => if acc.isEmpty then [] else [acc.reverse]
  | c :: rest, acc =>
    if isSpaceWs c then
      if acc.isEmpty then splitWsAux rest [] else acc.reverse :: splitWsAux rest []
    else splitWsAux rest (c :: acc)

/-- Python's argumentless `s.split()`: split on runs of whitespace, dropping
empty pieces. -/
def splitWs (l : List Char) : List (List Char) := splitWsAux l []

/-! ## Markers and literal text blocks from `run.py` -/

/-- Marker `"themes:"` (lines 467 and 621). -/
def sThemes : List Char := "themes:".toList

/-- Marker `"frontend:"` (line 622). -/
def sFrontend : List Char := "frontend:".toList

/-- Marker `"homeassistant:"` (lines 501 and 615). -/
def sHomeassistant : List Char := "homeassistant:".toList

/-- Marker `"name: Controll"` (line 614). -/
def sNameControll : List Char := "name: Controll".toList

/-- Marker `"name: \"Controll\""` (line 614). -/
def sNameControllQuoted : List Char := "name: \"Controll\"".toList

/-- Text appended by `handle_install_theme` when `"themes:"` is absent
(line 470). -/
def themeInstallAppendBlock : List Char :=
  "\n\n# Controll themes\nfrontend:\n  themes: !include_dir_merge_named themes\n".toList

/-- Text appended by `install_controll_branding` when neither `"themes:"` nor
`"frontend:"` is present (line 623). -/
def frontendThemesBlock : List Char :=
  "\nfrontend:\n  themes: !include_dir_merge_named themes\n".toList

/-- Replacement text substituted for `"frontend:"` by
`install_controll_branding` (lines 626-629). -/
def frontendReplacement : List Char :=
  "frontend:\n  themes: !include_dir_merge_named themes".toList

/-- The suffix that `frontendReplacement` adds after the `"frontend:"` header
(so `frontendReplacement = sFrontend ++ frontendChildSuffix`). -/
def frontendChildSuffix : List Char :=
  "\n  themes: !include_dir_merge_named themes".toList

/-- Branding block appended by both `handle_set_branding` (line 504) and
`install_controll_branding` (line 616): `f"\n\nhomeassistant:\n  name: {name}\n"`. -/
def brandingBlock (name : List Char) : List Char :=
  "\n\nhomeassistant:\n  name: ".toList ++ name ++ "\n".toList

/-! ## Auth gate (`verify_token`, lines 103-109) -/

/-- The bearer scheme prefix `"Bearer "`; `auth[7:]` strips exactly its
length. -/
def sBearer : List Char := "Bearer ".toList

/-- `HUB_TOKEN = OPTIONS.get("hub_token", "")` (line 79): the default hub
token when the option is absent is the empty string. -/
def hubTokenDefault : List Char := "".toList

/-- `verify_token` (lines 103-109).  `request.headers.get("Authorization", "")`
is modelled by `authHeader.getD []`: `none` stands for an absent header.  The
source returns `False` unless `auth.startswith("Bearer ")`, then compares
`auth[7:]` with `HUB_TOKEN`. -/
def verify_token (authHeader : Option (List Char)) (hubToken : List Char) : Bool :=
  let auth := authHeader.getD []
  if sBearer.isPrefixOf auth then auth.drop 7 == hubToken else false

/-! ## Heartbeat (`send_heartbeat`, lines 536-589) -/

/-- The `device_id` expression of the heartbeat payload (line 573):
`HUB_TOKEN.split("_")[0] if "_" in HUB_TOKEN else "unknown"`. -/
def device_id (hubToken : List Char) : List Char :=
  if containsSub "_".toList hubToken then (split_on '_' hubToken).headD []
  else "unknown".toList

/-- The `info` dict built by the two guarded fetches (lines 546-566): each key
is present exactly when its own `try` block succeeded. -/
structure HeartbeatInfo where
  ha_version : Option (List Char)
  entities_count : Option Nat
  deriving DecidableEq

/-- The heartbeat JSON body (lines 572-577). -/
structure HeartbeatPayload where
  device_id : List Char
  ha_version : Option (List Char)
  entities_count : Nat
  uptime : Nat
  deriving DecidableEq

/-- Lines 546-566: `info = {}` and then two independent `try ... except: pass`
blocks.  A fetch outcome is an `Except`: `.error` models the exception path,
where the corresponding key is simply never set. -/
def gatherHeartbeatInfo (versionFetch : Except Unit (Option (List Char)))
    (countFetch : Except Unit Nat) : HeartbeatInfo :=
  let info : HeartbeatInfo := ⟨none, none⟩
  let info1 :=
    match versionFetch with
    | Except.ok v => { info with ha_version := v }
    | Except.error _ => info
  match countFetch with
  | Except.ok n => { info1 with entities_count := some n }
  | Except.error _ => info1

/-- One heartbeat cycle (lines 540-577), up to payload composition: if
`HUB_TOKEN` is falsy the cycle is skipped (`none`); otherwise the payload is
composed from `info` with `info.get("ha_version")` (absent → `none`) and
`info.get("entities_count", 0)` (absent → `0`), and `uptime = 0`. -/
def send_heartbeat (hubToken : List Char)
    (versionFetch : Except Unit (Option (List Char)))
    (countFetch : Except Unit Nat) : Option HeartbeatPayload :=
  if hubToken.isEmpty then none
  else
    let info := gatherHeartbeatInfo versionFetch countFetch
    some { device_id := device_id hubToken
         , ha_version := info.ha_version
         , entities_count := (info.entities_count).getD 0
         , uptime := 0 }

/-! ## Reconciliation fragments -/

/-- The theme-registry step of `handle_install_theme` (lines 463-472): if
`"themes:"` is not in the configuration text, append the fixed block to the
end of the file (the file is opened in append mode); no other case exists. -/
def ensureThemesInstall (doc : List Char) : List Char :=
  if containsSub sThemes doc then doc else doc ++ themeInstallAppendBlock

/-- The branding step of `handle_set_branding` (lines 497-509): if
`"homeassistant:"` is absent, append the branding block for `name`; otherwise
the document is left untouched (the source only logs a warning). -/
def ensureSetBranding (doc name : List Char) : List Char :=
  if containsSub sHomeassistant doc then doc else doc ++ brandingBlock name

/-- The branding step of `install_controll_branding` (lines 613-618),
returning the new text and whether `changed` was set. -/
def ensureBrandingStartupStep (doc : List Char) : List Char × Bool :=
  if !containsSub sNameControll doc && !containsSub sNameControllQuoted doc then
    if containsSub sHomeassistant doc then (doc, false)
    else (doc ++ brandingBlock "Controll".toList, true)
  else (doc, false)

/-- The theme-registry step of `install_controll_branding` (lines 620-631),
returning the new text and whether `changed` was set.  When `"themes:"` is
absent: append a fresh section if `"frontend:"` is also absent, otherwise
substitute at every `"frontend:"` occurrence via `str.replace`. -/
def ensureThemesStartupStep (doc : List Char) : List Char × Bool :=
  if containsSub sThemes doc then (doc, false)
  else if containsSub sFrontend doc then
    (replaceAll sFrontend frontendReplacement doc, true)
  else (doc ++ frontendThemesBlock, true)

/-- The document produced by the startup theme-registry step. -/
def ensureThemesStartup (doc : List Char) : List Char :=
  (ensureThemesStartupStep doc).1

/-- `install_controll_branding` (lines 594-637) restricted to its effect on
the configuration text: run the branding step, then the theme-registry step on
the updated text; the second component is the final `changed` flag, and the
source writes the file back exactly when that flag is true (lines 633-635). -/
def install_controll_branding (doc : List Char) : List Char × Bool :=
  let r1 := ensureBrandingStartupStep doc
  let r2 := ensureThemesStartupStep r1.1
  (r2.1, r1.2 || r2.2)

/-! ## Error responses on handler exception paths -/

/-- A structured failure response `web.json_response({"error": ...}, status=...)`. -/
structure FailureResponse where
  error : List Char
  status : Nat
  deriving DecidableEq

/-- The `except Exception as e` arm shared by `handle_install_theme`
(lines 481-483), `handle_file_write` (lines 139-141) and `handle_set_branding`
(lines 517-519): the response body carries `str(e)` verbatim with
status 500. -/
def handlerExceptionResponse (e : List Char) : FailureResponse :=
  { error := e, status := 500 }

/-- A concrete `str(e)` for a `PermissionError` raised by
`config_file.read_text()` / `write_text()` under `/config`: the interpreter
includes the offending file-system path in the message. -/
def permissionDeniedMsg : List Char :=
  "[Errno 13] Permission denied: /config/configuration.yaml".toList

/-! ## Discovery (`handle_discovery`, lines 375-440)

`run.py` imports (lines 7-13) `asyncio`, `json`, `os`, `logging`, `Path`,
`datetime`, `web` and `ClientSession` — but never `subprocess`.  Evaluating
the name `subprocess` therefore raises `NameError` at line 402, before any
host is appended to `discovered`. -/

/-- A Python exception relevant to name resolution. -/
inductive PyExc where
  | nameError (n : List Char)
  deriving DecidableEq

/-- Every name bound at the top level of `run.py` (imports, module constants,
the module-level `with ... as f` target, and function definitions).  Python
resolves a free name inside a function body against these module globals (then
builtins, where `subprocess` is not defined either). -/
def moduleGlobals : List (List Char) :=
  ["asyncio", "json", "os", "logging", "Path", "datetime", "web",
   "ClientSession", "CONTROLL_THEME", "CONFIG_PATH", "HA_CONFIG_PATH",
   "SUPERVISOR_API", "HA_API", "f", "OPTIONS", "HUB_TOKEN", "PLATFORM_URL",
   "HEARTBEAT_INTERVAL", "LOG_LEVEL", "logger", "SUPERVISOR_TOKEN",
   "get_supervisor_headers", "verify_token", "handle_file_write",
   "handle_file_read", "handle_file_list", "handle_ha_service",
   "handle_ha_restart", "handle_ha_config", "handle_ha_states",
   "handle_addon_list", "handle_addon_install", "handle_system_info",
   "handle_discovery", "handle_install_theme", "handle_set_branding",
   "handle_health", "send_heartbeat", "install_controll_branding",
   "main"].map String.toList

/-- The free name `subprocess` used at lines 402 and 419. -/
def gSubprocess : List Char := "subprocess".toList

/-- Evaluating a free global name: `NameError` when it is unbound. -/
def resolveGlobal (n : List Char) : Except PyExc Unit :=
  if moduleGlobals.contains n then Except.ok () else Except.error (PyExc.nameError n)

/-- Result of a completed `subprocess.run` call, as the scan code reads it. -/
structure CmdResult where
  returncode : Int
  stdout : List Char
  deriving DecidableEq

/-- One entry appended to `discovered` (lines 425-430).  `stype` and `sname`
model the dict keys `"type"` and `"name"`. -/
structure DiscoveredEntry where
  host : List Char
  port : Nat
  stype : List Char
  sname : List Char
  deriving DecidableEq

/-- `KNOWN_SYSTEMS` (lines 392-397), in dict insertion order. -/
def KNOWN_SYSTEMS : List (Nat × List Char × List Char) :=
  [(8080, "digitalstrom".toList, "digitalSTROM dSS".toList),
   (80, "hue".toList, "Philips Hue Bridge".toList),
   (1400, "sonos".toList, "Sonos Speaker".toList),
   (3671, "knx".toList, "KNX IP Gateway".toList)]

/-- The inner port-check loop (lines 417-432): each `nc` probe first evaluates
the name `subprocess`; any exception (including the `NameError` from the
unbound name) is swallowed by the bare `except: pass`.  `runCmd` is the
environment oracle standing for actual subprocess execution. -/
def checkKnownPorts (runCmd : List (List Char) → CmdResult) (ip : List Char) :
    List DiscoveredEntry :=
  KNOWN_SYSTEMS.foldl
    (fun acc ps =>
      match resolveGlobal gSubprocess with
      | Except.error _ => acc
      | Except.ok _ =>
        let pc := runCmd (["nc", "-z", "-w", "1"].map String.toList ++
          [ip, (toString ps.1).toList])
        if pc.returncode == 0 then
          acc ++ [{ host := ip, port := ps.1, stype := ps.2.1, sname := ps.2.2 }]
        else acc)
    []

/-- The port-scan `try` body (lines 400-432): evaluate `subprocess` (line 402
— this raises `NameError`), run `nmap`, then parse every stdout line that
contains both `"Host:"` and `"Status: Up"`, taking `parts[1]` as the host when
`len(parts) >= 2` and probing each known port. -/
def portScan (runCmd : List (List Char) → CmdResult) :
    Except PyExc (List DiscoveredEntry) := do
  let _ ← resolveGlobal gSubprocess
  let result := runCmd (["nmap", "-sn", "192.168.1.0/24", "-oG", "-"].map String.toList)
  let lines := split_on '\n' result.stdout
  pure (lines.foldl
    (fun acc line =>
      if containsSub "Host:".toList line && containsSub "Status: Up".toList line then
        let parts := splitWs line
        if parts.length ≥ 2 then acc ++ checkKnownPorts runCmd (parts.getD 1 [])
        else acc
      else acc)
    [])

/-- Responses `handle_discovery` can produce. -/
inductive DiscoveryResult where
  | unauthorized
  | serverError (msg : List Char)
  | success (discovered : List DiscoveredEntry)
  deriving DecidableEq

/-- `handle_discovery` (lines 375-440).  `networkFetch` is the outcome of the
`/network/info` request (lines 384-389); if it raises, the outer
`except Exception` (lines 438-440) returns a 500 error.  The port-scan
`try` is wrapped in its own `except Exception` (lines 433-434) which only
logs, so a scan exception leaves `discovered = []` and the success response is
returned. -/
def handle_discovery (authorized : Bool) (networkFetch : Except (List Char) Unit)
    (runCmd : List (List Char) → CmdResult) : DiscoveryResult :=
  if !authorized then DiscoveryResult.unauthorized
  else
    match networkFetch with
    | Except.error e => DiscoveryResult.serverError e
    | Except.ok _ =>
      let discovered :=
        match portScan runCmd with
        | Except.ok l => l
        | Except.error _ => []
      DiscoveryResult.success discovered

end ControllSupervisor

namespace ControllSupervisor

theorem containsSub_append_right (pat a b : List Char) (h : containsSub pat b = true) :
    containsSub pat (a ++ b) = true := by
  induction a with
  | nil => simpa using h
  | cons c rest ih =>
    simp only [List.cons_append, containsSub, Bool.or_eq_true]
    exact Or.inr ih

theorem containsSub_append_left (pat a b : List Char) (h : containsSub pat a = true) :
    containsSub pat (a ++ b) = true := by
  induction a with
  | nil =>
    have hnil : pat = [] := by
      cases pat with
      | nil => rfl
      | cons x xs => simp [containsSub, List.isEmpty] at h
    subst hnil
    cases b <;> simp [containsSub, List.isPrefixOf]
  | cons c rest ih =>
    simp only [containsSub, Bool.or_eq_true] at h
    rcases h with h | h
    · have hp : pat <+: (c :: rest) := List.isPrefixOf_iff_prefix.mp h
      have hp2 : pat <+: ((c :: rest) ++ b) := hp.trans (List.prefix_append _ _)
      simp only [List.cons_append, containsSub, Bool.or_eq_true]
      exact Or.inl (List.isPrefixOf_iff_prefix.mpr (by simpa using hp2))
    · simp only [List.cons_append, containsSub, Bool.or_eq_true]
      exact Or.inr (ih h)

theorem sublist_replaceAllFuel (pat ext : List Char) :
    ∀ (n : Nat) (s : List Char), s.length ≤ n →
      List.Sublist s (replaceAllFuel pat (pat ++ ext) n s) := by
  intro n
  induction n with
  | zero =>
    intro s hs
    have hnil : s = [] := List.length_eq_zero.mp (Nat.le_zero.mp hs)
    subst hnil
    simp [replaceAllFuel]
  | succ n ih =>
    intro s hs
    cases s with
    | nil => simp [replaceAllFuel]
    | cons c rest =>
      by_cases hb : (!pat.isEmpty && pat.isPrefixOf (c :: rest)) = true
      · simp only [replaceAllFuel]
        rw [if_pos hb]
        simp only [Bool.and_eq_true, Bool.not_eq_true'] at hb
        have hpre : pat <+: (c :: rest) := List.isPrefixOf_iff_prefix.mp hb.2
        obtain ⟨t, ht⟩ := hpre
        have hplen : 1 ≤ pat.length := by
          cases pat with
          | nil => simp [List.isEmpty] at hb
          | cons x xs => simp
        have hdrop : (c :: rest).drop pat.length = t := by
          rw [← ht, List.drop_left]
        rw [hdrop]
        have htlen : t.length ≤ n := by
          have hlen : pat.length + t.length = rest.length + 1 := by
            have h2 := congrArg List.length ht
            simpa [List.length_append] using h2
          have hr : rest.length + 1 ≤ n + 1 := by simpa using hs
          omega
        have hsub := ih t htlen
        rw [← ht, List.append_assoc]
        exact (hsub.trans (List.sublist_append_right ext _)).append_left pat
      · simp only [replaceAllFuel]
        rw [if_neg hb]
        refine (ih rest ?_).cons₂ c
        simp only [List.length_cons] at hs
        omega

theorem containsSub_replaceAllFuel (pat rep q : List Char) (hq : containsSub q rep = true)
    (hpat : pat.isEmpty = false) :
    ∀ (n : Nat) (s : List Char), s.length ≤ n → containsSub pat s = true →
      containsSub q (replaceAllFuel pat rep n s) = true := by
  intro n
  induction n with
  | zero =>
    intro s hs hc
    have hnil : s = [] := List.length_eq_zero.mp (Nat.le_zero.mp hs)
    subst hnil
    simp [containsSub, hpat] at hc
  | succ n ih =>
    intro s hs hc
    cases s with
    | nil => simp [containsSub, hpat] at hc
    | cons c rest =>
      by_cases hb : (!pat.isEmpty && pat.isPrefixOf (c :: rest)) = true
      · simp only [replaceAllFuel]
        rw [if_pos hb]
        exact containsSub_append_left q rep _ hq
      · simp only [replaceAllFuel]
        rw [if_neg hb]
        have hnp : pat.isPrefixOf (c :: rest) = false := by
          have h2 : ¬ pat <+: (c :: rest) := by simpa [hpat] using hb
          cases hx : pat.isPrefixOf (c :: rest) with
          | false => rfl
          | true => exact absurd (List.isPrefixOf_iff_prefix.mp hx) h2
        have hcrest : containsSub pat rest = true := by
          simpa [containsSub, hnp] using hc
        have hrec := ih rest (by simp only [List.length_cons] at hs; omega) hcrest
        simp only [containsSub, Bool.or_eq_true]
        exact Or.inr hrec

theorem length_lt_replaceAllFuel (pat ext : List Char) (hpat : pat.isEmpty = false)
    (hext : 1 ≤ ext.length) :
    ∀ (n : Nat) (s : List Char), s.length ≤ n → containsSub pat s = true →
      s.length < (replaceAllFuel pat (pat ++ ext) n s).length := by
  intro n
  induction n with
  | zero =>
    intro s hs hc
    have hnil : s = [] := List.length_eq_zero.mp (Nat.le_zero.mp hs)
    subst hnil
    simp [containsSub, hpat] at hc
  | succ n ih =>
    intro s hs hc
    cases s with
    | nil => simp [containsSub, hpat] at hc
    | cons c rest =>
      by_cases hb : (!pat.isEmpty && pat.isPrefixOf (c :: rest)) = true
      · simp only [replaceAllFuel]
        rw [if_pos hb]
        simp only [Bool.and_eq_true, Bool.not_eq_true'] at hb
        obtain ⟨t, ht⟩ := List.isPrefixOf_iff_prefix.mp hb.2
        have hdrop : (c :: rest).drop pat.length = t := by
          rw [← ht, List.drop_left]
        rw [hdrop]
        have hlen : pat.length + t.length = rest.length + 1 := by
          have h2 := congrArg List.length ht
          simpa [List.length_append] using h2
        have htlen : t.length ≤ n := by
          have hp1 : 1 ≤ pat.length := by
            cases pat with
            | nil => simp [List.isEmpty] at hb
            | cons x xs => simp
          have hr : rest.length + 1 ≤ n + 1 := by simpa using hs
          omega
        have hsub := (sublist_replaceAllFuel pat ext n t htlen).length_le
        simp only [List.length_append, List.length_cons]
        omega
      · simp only [replaceAllFuel]
        rw [if_neg hb]
        have hnp : pat.isPrefixOf (c :: rest) = false := by
          have h2 : ¬ pat <+: (c :: rest) := by simpa [hpat] using hb
          cases hx : pat.isPrefixOf (c :: rest) with
          | false => rfl
          | true => exact absurd (List.isPrefixOf_iff_prefix.mp hx) h2
        have hcrest : containsSub pat rest = true := by
          simpa [containsSub, hnp] using hc
        have hrec := ih rest (by simp only [List.length_cons] at hs; omega) hcrest
        simp only [List.length_cons]
        omega

theorem sublist_replaceAll (pat ext s : List Char) :
    List.Sublist s (replaceAll pat (pat ++ ext) s) :=
  sublist_replaceAllFuel pat ext s.length s (Nat.le_refl _)

theorem containsSub_replaceAll (pat rep q s : List Char) (hq : containsSub q rep = true)
    (hpat : pat.isEmpty = false) (hc : containsSub pat s = true) :
    containsSub q (replaceAll pat rep s) = true :=
  containsSub_replaceAllFuel pat rep q hq hpat s.length s (Nat.le_refl _) hc

theorem length_lt_replaceAll (pat ext s : List Char) (hpat : pat.isEmpty = false)
    (hext : 1 ≤ ext.length) (hc : containsSub pat s = true) :
    s.length < (replaceAll pat (pat ++ ext) s).length :=
  length_lt_replaceAllFuel pat ext hpat hext s.length s (Nat.le_refl _) hc

end ControllSupervisor

namespace ControllSupervisor

theorem split_on_ne_nil (sep : Char) (l : List Char) : split_on sep l ≠ [] := by
  cases l with
  | nil => simp [split_on]
  | cons c rest =>
    simp only [split_on]
    cases h : split_on sep rest with
    | nil => simp
    | cons hd tl => by_cases hc : (c == sep) = true <;> simp [hc]

theorem split_on_headD (sep : Char) (l : List Char) :
    (split_on sep l).headD [] = l.takeWhile (fun c => c != sep) := by
  induction l with
  | nil => simp [split_on]
  | cons c rest ih =>
    simp only [split_on]
    cases h : split_on sep rest with
    | nil => exact absurd h (split_on_ne_nil sep rest)
    | cons hd tl =>
      rw [h] at ih
      simp only [List.headD_cons] at ih
      by_cases hc : (c == sep) = true
      · have hceq : c = sep := by simpa using hc
        simp [hc, hceq, List.takeWhile]
      · have hcf : (c == sep) = false := by simpa using hc
        simp only [hcf, Bool.false_eq_true, if_false, List.headD_cons]
        rw [List.takeWhile_cons_of_pos (by simp [bne, hcf])]
        rw [ih]

theorem containsSub_singleton (x : Char) (l : List Char) :
    containsSub [x] l = true ↔ x ∈ l := by
  induction l with
  | nil => simp [containsSub, List.isEmpty]
  | cons c rest ih =>
    simp only [containsSub, Bool.or_eq_true, List.mem_cons]
    constructor
    · rintro (h | h)
      · left
        simpa [List.isPrefixOf] using h
      · right; exact ih.mp h
    · rintro (h | h)
      · left; simp [List.isPrefixOf, h]
      · right; exact ih.mpr h

theorem verify_token_true_iff (tok : List Char) (a : Option (List Char)) :
    verify_token a tok = true ↔ a = some (sBearer ++ tok) := by
  cases a with
  | none =>
    have hfalse : verify_token none tok = false := rfl
    simp [hfalse]
  | some auth =>
    constructor
    · intro h
      by_cases hp : sBearer.isPrefixOf auth = true
      · have hdrop : auth.drop 7 == tok := by
          have hbody : verify_token (some auth) tok =
              (if sBearer.isPrefixOf auth then auth.drop 7 == tok else false) := rfl
          rw [hbody, if_pos hp] at h
          exact h
        have ht : auth.drop 7 = tok := by simpa using hdrop
        obtain ⟨t, htt⟩ := List.isPrefixOf_iff_prefix.mp hp
        have h7 : sBearer.length = 7 := rfl
        have hleft : auth.drop 7 = t := by rw [← htt, ← h7, List.drop_left]
        rw [hleft] at ht
        rw [← htt, ht]
      · have hbody : verify_token (some auth) tok =
            (if sBearer.isPrefixOf auth then auth.drop 7 == tok else false) := rfl
        rw [hbody, if_neg hp] at h
        exact absurd h (by simp)
    · intro h
      have hauth : auth = sBearer ++ tok := by injection h
      subst hauth
      have hp : sBearer.isPrefixOf (sBearer ++ tok) = true :=
        List.isPrefixOf_iff_prefix.mpr (List.prefix_append _ _)
      have hbody : verify_token (some (sBearer ++ tok)) tok =
          (if sBearer.isPrefixOf (sBearer ++ tok) then (sBearer ++ tok).drop 7 == tok
           else false) := rfl
      rw [hbody, if_pos hp]
      have h7 : sBearer.length = 7 := rfl
      have hd : (sBearer ++ tok).drop 7 = tok := by rw [← h7, List.drop_left]
      simp [hd]

end ControllSupervisor

namespace ControllSupervisor

theorem ensureBrandingStartupStep_cases (doc : List Char) :
    ensureBrandingStartupStep doc = (doc, false) ∨
    ensureBrandingStartupStep doc = (doc ++ brandingBlock "Controll".toList, true) := by
  unfold ensureBrandingStartupStep
  by_cases h1 : (!containsSub sNameControll doc && !containsSub sNameControllQuoted doc) = true
  · rw [if_pos h1]
    by_cases h2 : containsSub sHomeassistant doc = true
    · rw [if_pos h2]; exact Or.inl rfl
    · rw [if_neg h2]; exact Or.inr rfl
  · rw [if_neg h1]; exact Or.inl rfl

theorem ensureThemesStartupStep_cases (doc : List Char) :
    (containsSub sThemes doc = true ∧ ensureThemesStartupStep doc = (doc, false)) ∨
    (containsSub sThemes doc = false ∧ containsSub sFrontend doc = true ∧
      ensureThemesStartupStep doc = (replaceAll sFrontend frontendReplacement doc, true)) ∨
    (containsSub sThemes doc = false ∧ containsSub sFrontend doc = false ∧
      ensureThemesStartupStep doc = (doc ++ frontendThemesBlock, true)) := by
  unfold ensureThemesStartupStep
  by_cases h1 : containsSub sThemes doc = true
  · rw [if_pos h1]; exact Or.inl ⟨h1, rfl⟩
  · rw [if_neg h1]
    by_cases h2 : containsSub sFrontend doc = true
    · rw [if_pos h2]
      exact Or.inr (Or.inl ⟨Bool.not_eq_true _ ▸ Bool.of_not_eq_true h1, h2, rfl⟩)
    · rw [if_neg h2]
      exact Or.inr (Or.inr ⟨Bool.of_not_eq_true h1, Bool.of_not_eq_true h2, rfl⟩)

theorem themesStep_of_marker (doc : List Char) (h : containsSub sThemes doc = true) :
    ensureThemesStartupStep doc = (doc, false) := by
  unfold ensureThemesStartupStep
  rw [if_pos h]

theorem frontendReplacement_split : frontendReplacement = sFrontend ++ frontendChildSuffix := by
  decide

theorem marker_after_replace (doc : List Char) (h : containsSub sFrontend doc = true) :
    containsSub sThemes (replaceAll sFrontend frontendReplacement doc) = true :=
  containsSub_replaceAll sFrontend frontendReplacement sThemes doc (by decide) (by decide) h

theorem marker_after_append_startup (doc : List Char) :
    containsSub sThemes (doc ++ frontendThemesBlock) = true :=
  containsSub_append_right sThemes doc frontendThemesBlock (by decide)

theorem marker_after_append_install (doc : List Char) :
    containsSub sThemes (doc ++ themeInstallAppendBlock) = true :=
  containsSub_append_right sThemes doc themeInstallAppendBlock (by decide)

theorem themesStep_sublist (doc : List Char) :
    List.Sublist doc (ensureThemesStartupStep doc).1 := by
  rcases ensureThemesStartupStep_cases doc with ⟨_, he⟩ | ⟨_, _, he⟩ | ⟨_, _, he⟩
  · rw [he]
  · rw [he]
    show List.Sublist doc (replaceAll sFrontend frontendReplacement doc)
    rw [frontendReplacement_split]
    exact sublist_replaceAll sFrontend frontendChildSuffix doc
  · rw [he]
    exact List.sublist_append_left doc frontendThemesBlock

theorem brandingStep_sublist (doc : List Char) :
    List.Sublist doc (ensureBrandingStartupStep doc).1 := by
  rcases ensureBrandingStartupStep_cases doc with he | he
  · rw [he]
  · rw [he]
    exact List.sublist_append_left doc _

theorem themesStep_length (doc : List Char) :
    ((ensureThemesStartupStep doc).2 = false ∧ (ensureThemesStartupStep doc).1 = doc) ∨
    ((ensureThemesStartupStep doc).2 = true ∧
      doc.length < (ensureThemesStartupStep doc).1.length) := by
  rcases ensureThemesStartupStep_cases doc with ⟨h1, he⟩ | ⟨h1, h2, he⟩ | ⟨h1, h2, he⟩
  · left; rw [he]; exact ⟨rfl, rfl⟩
  · right; rw [he]
    refine ⟨rfl, ?_⟩
    show doc.length < (replaceAll sFrontend frontendReplacement doc).length
    rw [frontendReplacement_split]
    exact length_lt_replaceAll sFrontend frontendChildSuffix doc (by decide) (by decide) h2
  · right; rw [he]
    refine ⟨rfl, ?_⟩
    have hb : 1 ≤ frontendThemesBlock.length := by decide
    simp only [List.length_append]
    omega

theorem brandingStep_length (doc : List Char) :
    ((ensureBrandingStartupStep doc).2 = false ∧ (ensureBrandingStartupStep doc).1 = doc) ∨
    ((ensureBrandingStartupStep doc).2 = true ∧
      doc.length < (ensureBrandingStartupStep doc).1.length) := by
  rcases ensureBrandingStartupStep_cases doc with he | he
  · left; rw [he]; exact ⟨rfl, rfl⟩
  · right; rw [he]
    refine ⟨rfl, ?_⟩
    have hb : 1 ≤ (brandingBlock "Controll".toList).length := by decide
    simp only [List.length_append]
    omega

end ControllSupervisor

namespace ControllSupervisor

/-- Claim C1 (as stated) is false: on the document `"frontend:\n"`, which has
no theme-registry marker but does contain a frontend section, the
POST /api/theme/install path appends a whole new top-level section instead of
inserting the theme-registry line as a child via substitution at the existing
header. -/
theorem claim_C1_counterexample :
    containsSub sThemes "frontend:\n".toList = false ∧
    containsSub sFrontend "frontend:\n".toList = true ∧
    ensureThemesInstall "frontend:\n".toList ≠
      replaceAll sFrontend frontendReplacement "frontend:\n".toList ∧
    ensureThemesInstall "frontend:\n".toList =
      "frontend:\n".toList ++ themeInstallAppendBlock := by
  refine ⟨by decide, by decide, by decide, by decide⟩

/-- Claim C1 (amended): on a document without the theme-registry marker, the
startup path inserts as a child of an existing frontend section via
substitution and appends a new section only when none exists, while the
POST /api/theme/install path always appends its fixed block regardless of
whether a frontend section exists. -/
theorem claim_C1_amended (doc : List Char) (h : containsSub sThemes doc = false) :
    (containsSub sFrontend doc = true →
      ensureThemesStartup doc = replaceAll sFrontend frontendReplacement doc) ∧
    (containsSub sFrontend doc = false →
      ensureThemesStartup doc = doc ++ frontendThemesBlock) ∧
    ensureThemesInstall doc = doc ++ themeInstallAppendBlock := by
  refine ⟨?_, ?_, ?_⟩
  · intro hf
    unfold ensureThemesStartup ensureThemesStartupStep
    rw [if_neg (by simp [h]), if_pos hf]
  · intro hf
    unfold ensureThemesStartup ensureThemesStartupStep
    rw [if_neg (by simp [h]), if_neg (by simp [hf])]
  · unfold ensureThemesInstall
    rw [if_neg (by simp [h])]

/-- Witness for C1 (amended) at the concrete document `"frontend:\n"`. -/
theorem claim_C1_amended_witness :
    containsSub sThemes "frontend:\n".toList = false ∧
    ensureThemesStartup "frontend:\n".toList =
      replaceAll sFrontend frontendReplacement "frontend:\n".toList ∧
    ensureThemesInstall "frontend:\n".toList =
      "frontend:\n".toList ++ themeInstallAppendBlock := by
  refine ⟨by decide, ?_, ?_⟩
  · exact (claim_C1_amended "frontend:\n".toList (by decide)).1 (by decide)
  · exact (claim_C1_amended "frontend:\n".toList (by decide)).2.2

/-- Claim C2: both theme-registry reconciliation paths are idempotent — after
one application the `"themes:"` marker is present, so a second application
changes nothing, whether or not a frontend section pre-existed. -/
theorem claim_C2 (doc : List Char) :
    ensureThemesStartup (ensureThemesStartup doc) = ensureThemesStartup doc ∧
    containsSub sThemes (ensureThemesStartup doc) = true ∧
    ensureThemesInstall (ensureThemesInstall doc) = ensureThemesInstall doc ∧
    containsSub sThemes (ensureThemesInstall doc) = true := by
  have hstartup : containsSub sThemes (ensureThemesStartup doc) = true := by
    unfold ensureThemesStartup
    rcases ensureThemesStartupStep_cases doc with ⟨h1, he⟩ | ⟨h1, h2, he⟩ | ⟨h1, h2, he⟩
    · rw [he]; exact h1
    · rw [he]; exact marker_after_replace doc h2
    · rw [he]; exact marker_after_append_startup doc
  have hinstall : containsSub sThemes (ensureThemesInstall doc) = true := by
    unfold ensureThemesInstall
    by_cases h : containsSub sThemes doc = true
    · rw [if_pos h]; exact h
    · rw [if_neg h]; exact marker_after_append_install doc
  refine ⟨?_, hstartup, ?_, hinstall⟩
  · show (ensureThemesStartupStep (ensureThemesStartup doc)).1 = ensureThemesStartup doc
    rw [themesStep_of_marker _ hstartup]
  · have hexp : ensureThemesInstall (ensureThemesInstall doc) =
        (if containsSub sThemes (ensureThemesInstall doc) then ensureThemesInstall doc
         else ensureThemesInstall doc ++ themeInstallAppendBlock) := rfl
    rw [hexp, if_pos hinstall]

/-- Claim C3: the reconciliation operations never remove or reorder existing
bytes — each result has the input document as a sublist — and in particular
`handle_set_branding` either leaves the document unchanged (marker present)
or appends its whole branding block at the end, so the result is a
superstring of the input. -/
theorem claim_C3 (doc n : List Char) :
    (ensureSetBranding doc n = doc ∨
      ensureSetBranding doc n = doc ++ brandingBlock n) ∧
    ensureSetBranding doc n =
      (if containsSub sHomeassistant doc then doc else doc ++ brandingBlock n) ∧
    List.Sublist doc (ensureSetBranding doc n) ∧
    List.Sublist doc (install_controll_branding doc).1 ∧
    List.Sublist doc (ensureThemesInstall doc) := by
  have hset : ensureSetBranding doc n = doc ∨
      ensureSetBranding doc n = doc ++ brandingBlock n := by
    unfold ensureSetBranding
    by_cases h : containsSub sHomeassistant doc = true
    · rw [if_pos h]; exact Or.inl rfl
    · rw [if_neg h]; exact Or.inr rfl
  refine ⟨hset, rfl, ?_, ?_, ?_⟩
  · rcases hset with he | he
    · rw [he]
    · rw [he]; exact List.sublist_append_left doc _
  · show List.Sublist doc (ensureThemesStartupStep (ensureBrandingStartupStep doc).1).1
    exact (brandingStep_sublist doc).trans (themesStep_sublist _)
  · unfold ensureThemesInstall
    by_cases h : containsSub sThemes doc = true
    · rw [if_pos h]
    · rw [if_neg h]; exact List.sublist_append_left doc _

end ControllSupervisor

namespace ControllSupervisor

/-- Claim C4: startup reconciliation on the empty document sets the changed
flag, produces a document containing the default branding section and the
theme-registry directive, and a second run returns the same document with the
flag clear; moreover, for every document the flag — which alone guards the
write-back at lines 633-635 — is set exactly when the document actually
changed. -/
theorem claim_C4 :
    (install_controll_branding []).2 = true ∧
    containsSub "homeassistant:\n  name: Controll".toList
      (install_controll_branding []).1 = true ∧
    containsSub "themes: !include_dir_merge_named themes".toList
      (install_controll_branding []).1 = true ∧
    install_controll_branding (install_controll_branding []).1 =
      ((install_controll_branding []).1, false) ∧
    (∀ doc : List Char,
      ((install_controll_branding doc).2 = true ↔
        (install_controll_branding doc).1 ≠ doc)) := by
  refine ⟨by decide, by decide, by decide, by decide, ?_⟩
  intro doc
  have hexp : install_controll_branding doc =
      ((ensureThemesStartupStep (ensureBrandingStartupStep doc).1).1,
       (ensureBrandingStartupStep doc).2 ||
         (ensureThemesStartupStep (ensureBrandingStartupStep doc).1).2) := rfl
  rw [hexp]
  rcases brandingStep_length doc with ⟨hb2, hb1⟩ | ⟨hb2, hb1⟩
  · rw [hb1, hb2, Bool.false_or]
    rcases themesStep_length doc with ⟨ht2, ht1⟩ | ⟨ht2, ht1⟩
    · rw [ht2, ht1]
      simp
    · rw [ht2]
      simp only [true_iff]
      intro heq
      rw [heq] at ht1
      omega
  · rw [hb2, Bool.true_or]
    simp only [true_iff]
    rcases themesStep_length (ensureBrandingStartupStep doc).1 with ⟨_, ht1⟩ | ⟨_, ht1⟩
    · rw [ht1]
      intro heq
      rw [heq] at hb1
      omega
    · intro heq
      rw [heq] at ht1
      omega

/-- Claim C5: with expected token `"secret"`, `verify_token` rejects an absent
header, a header without the bearer scheme, and a wrong bearer credential, and
accepts exactly the header `"Bearer secret"`. -/
theorem claim_C5 :
    verify_token none "secret".toList = false ∧
    verify_token (some "secret".toList) "secret".toList = false ∧
    verify_token (some "Bearer wrong".toList) "secret".toList = false ∧
    verify_token (some "Bearer secret".toList) "secret".toList = true ∧
    ∀ a : Option (List Char),
      (verify_token a "secret".toList = true ↔ a = some "Bearer secret".toList) := by
  refine ⟨by decide, by decide, by decide, by decide, ?_⟩
  intro a
  have hbs : sBearer ++ "secret".toList = "Bearer secret".toList := by decide
  rw [← hbs]
  exact verify_token_true_iff "secret".toList a

/-- Claim C6: the heartbeat `device_id` is the part of the hub credential
before the first `'_'`, or `"unknown"` when the credential has no `'_'`; in
particular `"abc123_devkey"` gives `"abc123"` and `"nodash"` gives
`"unknown"`. -/
theorem claim_C6 :
    (∀ hub : List Char, device_id hub =
      if ('_' : Char) ∈ hub then hub.takeWhile (fun c => c != '_')
      else "unknown".toList) ∧
    device_id "abc123_devkey".toList = "abc123".toList ∧
    device_id "nodash".toList = "unknown".toList := by
  refine ⟨?_, by decide, by decide⟩
  intro hub
  by_cases h : containsSub "_".toList hub = true
  · have hm : ('_' : Char) ∈ hub := (containsSub_singleton '_' hub).mp h
    unfold device_id
    rw [if_pos h, if_pos hm, split_on_headD]
  · have hm : ('_' : Char) ∉ hub := fun hmem => h ((containsSub_singleton '_' hub).mpr hmem)
    unfold device_id
    rw [if_neg h, if_neg hm]

/-- Claim C7: in a heartbeat cycle with a configured hub token, a failed
version fetch or a failed entity-count fetch does not abort the cycle — the
payload is still composed, with `ha_version = none` when the version fetch
failed and `entities_count = 0` when the count fetch failed. -/
theorem claim_C7 (hub : List Char) (hn : hub ≠ [])
    (vf : Except Unit (Option (List Char))) (cf : Except Unit Nat) (e : Unit) :
    ((send_heartbeat hub (Except.error e) cf).isSome = true ∧
      (send_heartbeat hub (Except.error e) cf).map HeartbeatPayload.ha_version =
        some none) ∧
    ((send_heartbeat hub vf (Except.error e)).isSome = true ∧
      (send_heartbeat hub vf (Except.error e)).map HeartbeatPayload.entities_count =
        some 0) := by
  have hemp : hub.isEmpty = false := by
    cases hub with
    | nil => exact absurd rfl hn
    | cons c l => rfl
  refine ⟨⟨?_, ?_⟩, ⟨?_, ?_⟩⟩
  · simp [send_heartbeat, hemp]
  · cases cf <;> simp [send_heartbeat, hemp, gatherHeartbeatInfo]
  · simp [send_heartbeat, hemp]
  · cases vf <;> simp [send_heartbeat, hemp, gatherHeartbeatInfo]

/-- Witness for C7 at the hub credential `"abc123_devkey"` with one fetch
failing and the other succeeding. -/
theorem claim_C7_witness :
    ((send_heartbeat "abc123_devkey".toList (Except.error ()) (Except.ok 5)).isSome =
        true ∧
      (send_heartbeat "abc123_devkey".toList (Except.error ()) (Except.ok 5)).map
        HeartbeatPayload.ha_version = some none) ∧
    ((send_heartbeat "abc123_devkey".toList (Except.ok (some "2024.1.0".toList))
        (Except.error ())).isSome = true ∧
      (send_heartbeat "abc123_devkey".toList (Except.ok (some "2024.1.0".toList))
        (Except.error ())).map HeartbeatPayload.entities_count = some 0) :=
  claim_C7 "abc123_devkey".toList (by decide)
    (Except.ok (some "2024.1.0".toList)) (Except.ok 5) ()

/-- Claim C8 (as stated) is false: a `PermissionError` raised while reading or
writing the configuration file carries the raw path
`/config/configuration.yaml` in `str(e)`, and the handler returns that string
verbatim as the error message of its 500 response. -/
theorem claim_C8_counterexample :
    containsSub "/config/configuration.yaml".toList
      (handlerExceptionResponse permissionDeniedMsg).error = true ∧
    (handlerExceptionResponse permissionDeniedMsg).status = 500 :=
  ⟨by decide, rfl⟩

/-- Claim C8 (amended): the exception arms of the theme-install, file-write
and branding handlers return `str(e)` unsanitized with status 500, so the
error message contains a raw file-system path exactly when the exception text
does. -/
theorem claim_C8_amended (e p : List Char) (hp : containsSub p e = true) :
    handlerExceptionResponse e = { error := e, status := 500 } ∧
    containsSub p (handlerExceptionResponse e).error = true :=
  ⟨rfl, hp⟩

/-- Witness for C8 (amended) at the concrete permission-denied message. -/
theorem claim_C8_amended_witness :
    handlerExceptionResponse permissionDeniedMsg =
      { error := permissionDeniedMsg, status := 500 } ∧
    containsSub "/config".toList
      (handlerExceptionResponse permissionDeniedMsg).error = true :=
  claim_C8_amended permissionDeniedMsg "/config".toList (by decide)

/-- Claim C9: with the default (empty) hub token, the auth gate accepts the
header `"Bearer "` — bearer scheme with empty credential — and that is exactly
the accepted header. -/
theorem claim_C9 :
    verify_token (some "Bearer ".toList) hubTokenDefault = true ∧
    ∀ a : Option (List Char),
      (verify_token a hubTokenDefault = true ↔ a = some "Bearer ".toList) := by
  refine ⟨by decide, ?_⟩
  intro a
  have hbs : sBearer ++ hubTokenDefault = "Bearer ".toList := by decide
  rw [← hbs]
  exact verify_token_true_iff hubTokenDefault a

/-- Claim C10 (as stated) is false on the handler path where the initial
network-info fetch raises: the outer exception arm then returns a 500 error
response, not a success with an empty list. -/
theorem claim_C10_counterexample :
    handle_discovery true (Except.error "Cannot connect to host supervisor".toList)
        (fun _ => { returncode := 1, stdout := [] }) ≠
      DiscoveryResult.success [] ∧
    handle_discovery true (Except.error "Cannot connect to host supervisor".toList)
        (fun _ => { returncode := 1, stdout := [] }) =
      DiscoveryResult.serverError "Cannot connect to host supervisor".toList :=
  ⟨by decide, rfl⟩

/-- Claim C10 (amended): `subprocess` is not among the module's global names,
so the port scan always raises `NameError` before appending any host; the
handler swallows that exception and returns a success response with an empty
`discovered` list whenever the initial network-info fetch succeeded, and a 500
error response when that fetch raised. -/
theorem claim_C10_amended (runCmd : List (List Char) → CmdResult) (msg : List Char) :
    moduleGlobals.contains gSubprocess = false ∧
    portScan runCmd = Except.error (PyExc.nameError gSubprocess) ∧
    handle_discovery true (Except.ok ()) runCmd = DiscoveryResult.success [] ∧
    handle_discovery true (Except.error msg) runCmd = DiscoveryResult.serverError msg :=
  ⟨by decide, rfl, rfl, rfl⟩

end ControllSupervisor
